import Mathlib

/-
  Verification development for the `s2reader` Sentinel-2 L2A reading library.

  The definitions below are a shallow embedding of the Python sources:
    * `S2.get_img_path`  embeds `IMGReader._get_img_path`
      (src/s2reader/L2A/readers/jp2/img/img.py),
    * `S2.get_best`      embeds `BandReader._get_best`
      (src/s2reader/L2A/band.py), including the pandas semantics of
      `x in series` (membership test on the *index* labels) and of
      `Series.idxmin` (label of the first minimal element),
    * `S2.Meta`, `S2.get_band_offset`, `S2.get_band_quantification`
      embed src/s2reader/L2A/metadata.py,
    * `S2.reflectanceRead`, `S2.classificationRead`, `S2.atmosphericRead`
      embed the three category readers under src/s2reader/L2A/readers/jp2/img/,
    * `S2.L2A.read`, `S2.L2A.update`, `S2.L2A.removeTags`, `S2.L2A.add_mask`,
      `S2.L2A.apply_mask`, `S2.L2A.unique_tags`, `S2.L2A.init`
      embed the orchestrator `L2AProduct` (src/s2reader/L2A/product.py).

  Modelling conventions: raster grids are functions from an abstract cell
  index type `ι` to `Option ℚ` (a `none` cell is NaN / no-data; xarray
  vectorised arithmetic and comparison become pointwise operations);
  numbers are `ℚ`; Python exceptions are an explicit `Err` value returned
  next to the (possibly already mutated) state, matching CPython's
  in-place mutation followed by exception propagation.  External
  collaborators (rasterio decoding, reprojection, XML parsing) enter as
  explicit environment functions, never as stubs of core logic.
-/

namespace S2

/-- Python exceptions raised by the library, by site. -/
inductive Err where
  /-- `ValueError("No image files found in metadata.")` in `_get_img_path`. -/
  | valueError : Err
  /-- `ValueError("Duplicate tags found: ...")` in `_unique_tags`; the payload
      is the `duplicates` dictionary: each colliding tag with the modules of
      every reader claiming it. -/
  | duplicateTags : List (String × List String) → Err
  /-- The generic `Exception` in `L2AProduct.read` when a reader returns
      neither a DataArray nor a DataFrame. -/
  | readerContract : Err
  /-- `AttributeError` from calling a method on `None`
      (e.g. `self.da.where(...)` or `self.da.sel(...)` with `self.da is None`). -/
  | attributeNone : Err
  /-- `KeyError` from metadata lookups and from `DataArray.sel` misses. -/
  | keyError : Err
  /-- `FileNotFoundError` (missing jp2 file / no image file for a tag). -/
  | fileNotFound : Err
  /-- `ValueError` for an unsupported quantification category. -/
  | invalidArgument : Err
  /-- `Exception("No data to add")` in `L2AProduct.update`. -/
  | noData : Err
  /-- `Exception("Can only add one type of data at a time")` in `L2AProduct.update`. -/
  | bothData : Err
  /-- `ValueError("No bands available to remove.")` in `L2AProduct.remove`. -/
  | invalidState : Err
  /-- `ValueError` wrapping a failed jp2 decode in `JP2Reader.read_jp2`. -/
  | decodeError : Err
  deriving DecidableEq

/-- One entry of the manifest scan in `IMGReader._get_img_path`: the band name
    token and native resolution extracted from the file name, and the path. -/
structure ImgRecord where
  name : String
  res : Nat
  path : String
  deriving DecidableEq

/-- One row of the candidate DataFrame handled by `BandReader._get_best`:
    pandas row index label, native resolution, and path. -/
structure IdxRow where
  idx : Nat
  res : Nat
  path : String
  deriving DecidableEq

/-- `Series.idxmin` followed by `.loc`: the first element of `r :: rs`
    whose `res` field is minimal. -/
def minRecBy {α : Type} (res : α → Nat) (r : α) (rs : List α) : α :=
  rs.foldl (fun b x => if res x < res b then x else b) r

/-- `IMGReader._get_img_path` (img.py lines 17-53): raise if the metadata
    manifest is empty, keep the records whose name token equals the tag,
    return `none` if there is no match, otherwise the path of the record
    with the smallest native resolution (first one on ties).  The target
    resolution is not consulted at all. -/
def get_img_path (files : List ImgRecord) (tag : String) : Except Err (Option String) :=
  if files = [] then .error .valueError
  else
    match files.filter (fun r => r.name == tag) with
    | [] => .ok none
    | r :: rs => .ok (some ((minRecBy ImgRecord.res r rs).path))

/-- `BandReader._get_best` (band.py lines 92-110).  The Python test
    `self.target_resolution in band_df['resolution']` is pandas Series
    membership, which checks the *index labels*, not the values; when it
    holds, `.iloc[0]` of the equal-resolution rows is taken (`none` models
    the `IndexError` when that selection is empty), otherwise
    `idxmin` picks the first row of smallest resolution. -/
def get_best (target : Nat) (band_df : List IdxRow) : Option IdxRow :=
  if band_df.any (fun r => r.idx == target) then
    (band_df.filter (fun r => r.res == target)).head?
  else
    match band_df with
    | [] => none
    | r :: rs => some (minRecBy IdxRow.res r rs)

/-- The parts of `Metadata` (metadata.py) that calibration consults.  The XML
    lookups are modelled as partial maps derived from the parsed documents:
    `referBand` is `_refer_band(tag, 'band_tag', 'band_id')` over the band
    table, `boaOffset` is the `BOA_ADD_OFFSET[@band_id=...]` lookup, and
    `quantValues` is the `<TYPE>_QUANTIFICATION_VALUE` lookup. -/
structure Meta where
  referBand : String → Option String
  boaOffset : String → Option ℚ
  quantValues : String → Option ℚ

/-- `Metadata.get_band_offset` (metadata.py lines 27-41): band tag to band id
    via the band table (a miss is a `KeyError`), then the per-band
    `BOA_ADD_OFFSET` value (a miss is a `KeyError`). -/
def get_band_offset (m : Meta) (band_tag : String) : Except Err ℚ :=
  match m.referBand band_tag with
  | none => .error .keyError
  | some bid =>
    match m.boaOffset bid with
    | none => .error .keyError
    | some o => .ok o

/-- `Metadata.get_band_quantification` (metadata.py lines 43-58): only the
    closed category set `{WVP, AOT, BOA}` is accepted (`ValueError`
    otherwise), then the `<TYPE>_QUANTIFICATION_VALUE` element is looked up
    (`KeyError` if absent). -/
def get_band_quantification (m : Meta) (band_type : String) : Except Err ℚ :=
  if band_type ∈ ["WVP", "AOT", "BOA"] then
    match m.quantValues band_type with
    | none => .error .keyError
    | some q => .ok q
  else .error .invalidArgument

/-- A single-band plane (`xr.DataArray` with a one-element band coordinate):
    the band tag plus a grid of cells over the abstract index type `ι`.
    A `none` cell is NaN / no-data. -/
structure Band (ι : Type) where
  tag : String
  cells : ι → Option ℚ

/-- What a category reader's `read` can hand back to `L2AProduct.read`:
    a raster plane, a table fragment (rows modelled abstractly as integers),
    or some other Python object (`other`), which the orchestrator rejects. -/
inductive RData (ι : Type) where
  | da (b : Band ι)
  | vec (t : List ℤ)
  | other

/-- One registered reader category as the orchestrator sees it: its
    `_PATTERNS` list, its `__module__` name (used in the duplicate-tag
    error), and its `read` method. -/
structure Reader (ι : Type) where
  pats : List String
  modName : String
  read : String → Except Err (RData ι)

/-- The environment a jp2 category reader runs in: the parsed metadata, the
    `IMAGE_FILE` manifest records (name token and native resolution already
    extracted from each file name), and `read_jp2` — the external
    open + reproject collaborator, returning the raw digital-number grid for
    a path (`FileNotFoundError` / decode failures as errors). -/
structure JP2Env (ι : Type) where
  meta : Meta
  files : List ImgRecord
  fetch : String → Except Err (ι → ℚ)

/-- `ReflectanceReader.read` (reflectance.py lines 15-45): locate the image
    file, read + resample it, then apply the per-band offset and the
    surface-reflectance (`BOA`) quantification:
    `band_data = (band_data + offset) / quant`, pointwise over the grid. -/
def reflectanceRead {ι : Type} (env : JP2Env ι) (tag : String) : Except Err (Band ι) :=
  match get_img_path env.files tag with
  | .error e => .error e
  | .ok none => .error .fileNotFound
  | .ok (some p) =>
    match env.fetch p with
    | .error e => .error e
    | .ok raw =>
      match get_band_offset env.meta tag with
      | .error e => .error e
      | .ok o =>
        match get_band_quantification env.meta "BOA" with
        | .error e => .error e
        | .ok q => .ok ⟨tag, fun i => some ((raw i + o) / q)⟩

/-- `AtmosphericReader.read` (atmospheric.py lines 14-42): locate, read,
    then divide by the category's own quantification value — the lookup key
    is the tag itself (`WVP` or `AOT`); no offset is applied. -/
def atmosphericRead {ι : Type} (env : JP2Env ι) (tag : String) : Except Err (Band ι) :=
  match get_img_path env.files tag with
  | .error e => .error e
  | .ok none => .error .fileNotFound
  | .ok (some p) =>
    match env.fetch p with
    | .error e => .error e
    | .ok raw =>
      match get_band_quantification env.meta tag with
      | .error e => .error e
      | .ok q => .ok ⟨tag, fun i => some (raw i / q)⟩

/-- `ClassificationReader.read` (classification.py lines 14-36): locate,
    read, and return the plane unmodified. -/
def classificationRead {ι : Type} (env : JP2Env ι) (tag : String) : Except Err (Band ι) :=
  match get_img_path env.files tag with
  | .error e => .error e
  | .ok none => .error .fileNotFound
  | .ok (some p) =>
    match env.fetch p with
    | .error e => .error e
    | .ok raw => .ok ⟨tag, fun i => some (raw i)⟩

/-- `ReflectanceReader._PATTERNS`. -/
def REFLECTANCE_PATTERNS : List String :=
  ["B01", "B02", "B03", "B04", "B05", "B06", "B07", "B08", "B8A", "B09", "B10", "B11", "B12"]

/-- `ClassificationReader._PATTERNS`. -/
def CLASSIFICATION_PATTERNS : List String := ["SCL"]

/-- `AtmosphericReader._PATTERNS`. -/
def ATMOSPHERIC_PATTERNS : List String := ["WVP", "AOT"]

/-- `ReflectanceReader` packaged for the registry. -/
def mkReflectanceReader {ι : Type} (env : JP2Env ι) : Reader ι :=
  ⟨REFLECTANCE_PATTERNS, "s2reader.L2A.readers.jp2.img.reflectance.reflectance",
    fun tag => (reflectanceRead env tag).map RData.da⟩

/-- `ClassificationReader` packaged for the registry. -/
def mkClassificationReader {ι : Type} (env : JP2Env ι) : Reader ι :=
  ⟨CLASSIFICATION_PATTERNS, "s2reader.L2A.readers.jp2.img.classification.classification",
    fun tag => (classificationRead env tag).map RData.da⟩

/-- `AtmosphericReader` packaged for the registry. -/
def mkAtmosphericReader {ι : Type} (env : JP2Env ι) : Reader ι :=
  ⟨ATMOSPHERIC_PATTERNS, "s2reader.L2A.readers.jp2.img.atmospheric.atmospheric",
    fun tag => (atmosphericRead env tag).map RData.da⟩

/-- `L2AProduct._READERS` (product.py lines 17-21), instantiated over an
    environment. -/
def L2A_READERS {ι : Type} (env : JP2Env ι) : List (Reader ι) :=
  [mkReflectanceReader env, mkClassificationReader env, mkAtmosphericReader env]

namespace L2A

/-- The mutable state of an `L2AProduct` handle: the raster stack `da`
    (`None` or an ordered list of single-band planes along the band axis),
    the accumulated boolean exclusion mask `_mask` (`none` models both the
    attribute being absent and its being `None`), and the vector table
    `gdf`. -/
structure ProdState (ι : Type) where
  da : Option (List (Band ι))
  mask : Option (ι → Bool)
  gdf : Option (List ℤ)

/-- The freshly initialised state of `L2AProduct.__init__` before the mask
    specification is processed: `da`, `_mask` and `gdf` all unset. -/
def initialState (ι : Type) : ProdState ι := ⟨none, none, none⟩

/-- `L2AProduct._exists` (product.py lines 185-195):
    `self.da is not None and tag in self.da.band.values`. -/
def existsTag {ι : Type} (s : ProdState ι) (tag : String) : Bool :=
  match s.da with
  | none => false
  | some st => st.any (fun b => b.tag == tag)

/-- The band selected by `self.da.sel(band=tag)`: the first plane in the
    stack carrying the tag. -/
def findBand {ι : Type} (st : List (Band ι)) (tag : String) : Option (Band ι) :=
  st.find? (fun b => b.tag == tag)

/-- The band axis of the stack: `self.da.band.values` as a list of tags
    (empty when `self.da is None`). -/
def stackTags {ι : Type} (s : ProdState ι) : List String :=
  match s.da with
  | none => []
  | some st => st.map Band.tag

/-- Observable cell access: the value the stack reports for `tag` at cell
    `i`, or `none` when the band is absent (or the stack is `None`). -/
def bandCell {ι : Type} (s : ProdState ι) (tag : String) (i : ι) : Option (Option ℚ) :=
  match s.da with
  | none => none
  | some st => (findBand st tag).map (fun b => b.cells i)

/-- `L2AProduct.update` (product.py lines 107-136): exactly one of `vec` and
    `da` must be supplied; a raster plane is appended along the band axis
    (`xr.concat`), first write initialises the stack; table rows are
    appended (`pd.concat`). -/
def update {ι : Type} (s : ProdState ι) (vec : Option (List ℤ)) (da : Option (Band ι)) :
    Except Err (ProdState ι) :=
  match vec, da with
  | none, none => .error .noData
  | some _, some _ => .error .bothData
  | none, some b =>
    .ok { s with da := some (match s.da with
                             | none => [b]
                             | some st => st ++ [b]) }
  | some t, none =>
    .ok { s with gdf := some (match s.gdf with
                              | none => t
                              | some g => g ++ t) }

/-- The per-value mask accumulation in `_add_mask` (product.py lines
    154-157): start from `xr.zeros_like(arr, dtype=bool)` and fold
    `mask = mask | (arr == value)` over the requested values.  The xarray
    comparison is pointwise; a NaN (`none`) cell never equals a value. -/
def buildMask {ι : Type} (arr : ι → Option ℚ) (values : List ℚ) : ι → Bool :=
  values.foldl (fun m v => fun i => m i || decide (arr i = some v)) (fun _ => false)

/-- `self.da.where(~self._mask)` restricted to one plane: cells where the
    mask holds become NaN, all others keep their value. -/
def maskBand {ι : Type} (m : ι → Bool) (b : Band ι) : Band ι :=
  ⟨b.tag, fun i => if m i then none else b.cells i⟩

/-- `self.da.where(~self._mask)` over the whole stack (the mask grid
    broadcasts across the band axis). -/
def maskWhere {ι : Type} (m : ι → Bool) (st : List (Band ι)) : List (Band ι) :=
  st.map (maskBand m)

/-- `L2AProduct._apply_mask` (product.py lines 162-167): a no-op when the
    mask is unset, otherwise `self.da = self.da.where(~self._mask)` — which
    raises `AttributeError` when `self.da is None`. -/
def apply_mask {ι : Type} (s : ProdState ι) : Except Err (ProdState ι) :=
  match s.mask with
  | none => .ok s
  | some m =>
    match s.da with
    | none => .error .attributeNone
    | some st => .ok { s with da := some (maskWhere m st) }

/-- The inner loop of `L2AProduct.read` (product.py lines 69-84) for one
    tag: scan the reader list; a reader whose `_PATTERNS` does not contain
    the tag (a plain list membership test) is skipped, as is the whole fetch
    when the tag is already in the stack; otherwise the reader's `read` runs
    and its result is merged via `update` (a plane as `da=`, a table as
    `vec=`, anything else raises).  An exception leaves the state as it was
    at that point and propagates. -/
def readTagLoop {ι : Type} (tag : String) : ProdState ι → List (Reader ι) →
    ProdState ι × Option Err
  | s, [] => (s, none)
  | s, r :: rs =>
    if tag ∈ r.pats then
      if existsTag s tag then readTagLoop tag s rs
      else
        match r.read tag with
        | .error e => (s, some e)
        | .ok (.da b) =>
          match update s none (some b) with
          | .ok s' => readTagLoop tag s' rs
          | .error e => (s, some e)
        | .ok (.vec t) =>
          match update s (some t) none with
          | .ok s' => readTagLoop tag s' rs
          | .error e => (s, some e)
        | .ok .other => (s, some .readerContract)
    else readTagLoop tag s rs

/-- The outer loop of `L2AProduct.read` over the requested tags: each tag is
    dispatched and merged in order; the first exception stops the batch with
    the state accumulated so far. -/
def readLoop {ι : Type} (readers : List (Reader ι)) : ProdState ι → List String →
    ProdState ι × Option Err
  | s, [] => (s, none)
  | s, tag :: ts =>
    match readTagLoop tag s readers with
    | (s', none) => readLoop readers s' ts
    | (s', some e) => (s', some e)

/-- `L2AProduct.read` (product.py lines 59-86): process the batch of tags,
    then re-apply the current mask to the whole stack.  A failure in the
    mask re-application also propagates, leaving the stack as accumulated. -/
def read {ι : Type} (readers : List (Reader ι)) (s : ProdState ι) (tags : List String) :
    ProdState ι × Option Err :=
  match readLoop readers s tags with
  | (s', some e) => (s', some e)
  | (s', none) =>
    match apply_mask s' with
    | .ok s'' => (s'', none)
    | .error e => (s', some e)

/-- `L2AProduct.remove` (product.py lines 88-105): `ValueError` when the
    stack is `None` (or lacks a band axis — unreachable for stacks built by
    `update`, whose planes always carry the band coordinate); when every
    present band is named the stack becomes `None`; otherwise the named
    bands are dropped (`sel(band=~isin(tags))`). -/
def removeTags {ι : Type} (s : ProdState ι) (tags : List String) : Except Err (ProdState ι) :=
  match s.da with
  | none => .error .invalidState
  | some st =>
    if st.countP (fun b => decide (b.tag ∈ tags)) = st.length then
      .ok { s with da := none }
    else
      .ok { s with da := some (st.filter (fun b => !decide (b.tag ∈ tags))) }

/-- `L2AProduct._add_mask` (product.py lines 138-160): read the tag
    (transparently fetching it if absent — nothing is ever removed again
    afterwards), select its plane (`sel` raises on a miss, `AttributeError`
    when the stack is `None`), initialise the master mask to all-false if
    unset, build the per-value equality union, and OR it into the master
    mask.  The new mask is not applied here. -/
def add_mask {ι : Type} (readers : List (Reader ι)) (s : ProdState ι) (tag : String)
    (values : List ℚ) : ProdState ι × Option Err :=
  match read readers s [tag] with
  | (s', some e) => (s', some e)
  | (s', none) =>
    match s'.da with
    | none => (s', some .attributeNone)
    | some st =>
      match findBand st tag with
      | none => (s', some .keyError)
      | some arrBand =>
        let base : ι → Bool :=
          match s'.mask with
          | none => fun _ => false
          | some m => m
        let m := buildMask arrBand.cells values
        ({ s' with mask := some (fun i => base i || m i) }, none)

/-- One step of building the `tag_to_readers` dictionary in
    `L2AProduct._unique_tags` (product.py lines 206-211): append the module
    to the tag's entry if the tag is already a key, else add a new entry at
    the end (Python dictionaries preserve insertion order). -/
def addOwner (acc : List (String × List String)) (tag modName : String) :
    List (String × List String) :=
  if acc.any (fun p => p.1 == tag) then
    acc.map (fun p => if p.1 == tag then (p.1, p.2 ++ [modName]) else p)
  else acc ++ [(tag, [modName])]

/-- Dictionary lookup: the owner list recorded for a tag (empty when the tag
    is not a key). -/
def lookupOwners (acc : List (String × List String)) (tag : String) : List String :=
  match acc.find? (fun p => p.1 == tag) with
  | some p => p.2
  | none => []

/-- The full `tag_to_readers` dictionary of `_unique_tags`: both loops,
    readers outer and patterns inner. -/
def tagToReaders {ι : Type} (readers : List (Reader ι)) : List (String × List String) :=
  readers.foldl (fun acc r => r.pats.foldl (fun a t => addOwner a t r.modName) acc) []

/-- The `duplicates` dictionary of `_unique_tags`: the entries with more
    than one owning reader. -/
def duplicates {ι : Type} (readers : List (Reader ι)) : List (String × List String) :=
  (tagToReaders readers).filter (fun p => decide (1 < p.2.length))

/-- `L2AProduct._unique_tags` (product.py lines 197-218): raise `ValueError`
    enumerating every duplicated tag with its owning readers when the
    `duplicates` dictionary is non-empty. -/
def unique_tags {ι : Type} (readers : List (Reader ι)) : Except Err Unit :=
  if duplicates readers = [] then .ok () else .error (.duplicateTags (duplicates readers))

/-- The owners a tag accumulates in `tag_to_readers`, spelled out reader by
    reader: each reader contributes its module name once per occurrence of
    the tag in its `_PATTERNS` list, in registration order. -/
def ownersSpec {ι : Type} : List (Reader ι) → String → List String
  | [], _ => []
  | r :: rs, tag => List.replicate (r.pats.count tag) r.modName ++ ownersSpec rs tag

/-- The mask-specification loop at the end of `L2AProduct.__init__`
    (product.py lines 55-57): `_add_mask` for each entry in order, an
    exception aborting the loop. -/
def maskLoop {ι : Type} (readers : List (Reader ι)) : ProdState ι →
    List (String × List ℚ) → ProdState ι × Option Err
  | s, [] => (s, none)
  | s, (tag, vals) :: rest =>
    match add_mask readers s tag vals with
    | (s', none) => maskLoop readers s' rest
    | (s', some e) => (s', some e)

/-- `L2AProduct.__init__` (product.py lines 23-57) from the point where the
    state is initialised: empty `da`/`mask`/`gdf`, the `_unique_tags`
    registry check (fatal before any read is attempted), then the optional
    mask specification, processed entry by entry through `_add_mask`. -/
def init {ι : Type} (readers : List (Reader ι)) (maskSpec : List (String × List ℚ)) :
    ProdState ι × Option Err :=
  match unique_tags readers with
  | .error e => (initialState ι, some e)
  | .ok _ => maskLoop readers (initialState ι) maskSpec

/-! Concrete fixtures used by the closed-form theorems below: small
    manifests, reader stubs and states on one-cell (`Unit`) and two-cell
    (`Bool`) grids. -/

/-- A band with source files at 20 m and 10 m native resolution: the
    exact-match candidate for a 20 m target is `p20`. -/
def cFiles : List ImgRecord := [⟨"B02", 20, "p20"⟩, ⟨"B02", 10, "p10"⟩]

/-- The same two candidates as rows of the generic reader's DataFrame,
    carrying the default positional index labels 0 and 1. -/
def cRows : List IdxRow := [⟨0, 20, "q20"⟩, ⟨1, 10, "q10"⟩]

/-- A trivial reader environment over a one-cell grid: empty manifest,
    every lookup and fetch fails. -/
def env0 : JP2Env Unit :=
  ⟨⟨fun _ => none, fun _ => none, fun _ => none⟩, [], fun _ => .error .fileNotFound⟩

/-- An environment whose manifest, metadata and fetch all succeed, with
    offset -1000, BOA quantification 10000, WVP/AOT quantification 1000 and
    a constant raw plane of 5. -/
def env6 : JP2Env Unit :=
  { meta :=
      { referBand := fun tag => if tag = "B02" then some "1" else none
        boaOffset := fun bid => if bid = "1" then some (-1000) else none
        quantValues := fun ty =>
          if ty = "BOA" then some 10000
          else if ty = "WVP" then some 1000
          else if ty = "AOT" then some 1000 else none }
    files := [⟨"B02", 10, "pB02"⟩, ⟨"WVP", 10, "pWVP"⟩, ⟨"SCL", 20, "pSCL"⟩]
    fetch := fun _ => .ok (fun _ => 5) }

/-- A stub classification reader over a one-cell grid whose plane is the
    constant 0. -/
def uSCLReader : Reader Unit :=
  { pats := ["SCL"], modName := "classification",
    read := fun tag => .ok (.da ⟨tag, fun _ => some 0⟩) }

/-- The product state straight after construction with the mask
    specification `{SCL: [0]}`: the SCL plane is in the stack, the mask is
    pending and has not yet been applied. -/
def s8 : ProdState Unit := (init [uSCLReader] [("SCL", [0])]).1

/-- The state after then removing every band: stack `None`, mask still
    set. -/
def s10 : ProdState Unit := { da := none, mask := s8.mask, gdf := none }

/-- A reflectance reader stub for which `B02` succeeds and `B03` raises
    `FileNotFoundError`. -/
def rW : Reader Unit :=
  { pats := ["B02", "B03"], modName := "reflectance",
    read := fun tag =>
      if tag == "B02" then .ok (.da ⟨"B02", fun _ => some 1⟩) else .error .fileNotFound }

/-- The state `read` leaves behind when the batch `[B02, B03]` fails on
    `B03`: the `B02` plane is already merged. -/
def sW1 : ProdState Unit := ⟨some [⟨"B02", fun _ => some 1⟩], none, none⟩

/-- A maskless state already holding a `B07` plane. -/
def sFix : ProdState Unit := ⟨some [⟨"B07", fun _ => some 5⟩], none, none⟩

/-- A reader claiming `B08`. -/
def rA : Reader Unit := ⟨["B08"], "modA", fun _ => .ok .other⟩

/-- A second reader also claiming `B08`. -/
def rB : Reader Unit := ⟨["B08", "B09"], "modB", fun _ => .ok .other⟩

/-- A two-cell classification plane: value 3 at cell `true`, 1 at cell
    `false`. -/
def b5 : Band Bool := ⟨"SCL", fun i => if i then some 3 else some 1⟩

/-- A two-cell reflectance plane of constant 7. -/
def bB2 : Band Bool := ⟨"B02", fun _ => some 7⟩

/-- A two-band stack over the two-cell grid. -/
def st5 : List (Band Bool) := [b5, bB2]

/-- A maskless state holding `st5`. -/
def s5 : ProdState Bool := ⟨some st5, none, none⟩

/-- The masked value set of the SCL masking example. -/
def V5 : List ℚ := [0, 3, 8, 9]

/-- A one-cell `B02` plane of constant 2. -/
def bC92 : Band Unit := ⟨"B02", fun _ => some 2⟩

/-- A one-cell `B03` plane of constant 3. -/
def bC93 : Band Unit := ⟨"B03", fun _ => some 3⟩

/-- The two-band stack for the removal theorems. -/
def stC9 : List (Band Unit) := [bC92, bC93]

/-- A maskless state holding `B02` and `B03` planes, for the removal
    theorems. -/
def sC9 : ProdState Unit := ⟨some stC9, none, none⟩

end L2A

/-! Helper lemmas. -/

theorem minRecBy_mem {α : Type} (res : α → Nat) (r : α) (rs : List α) :
    minRecBy res r rs ∈ r :: rs := by
  induction rs generalizing r with
  | nil => simp [minRecBy]
  | cons x xs ih =>
    have h1 := ih (if res x < res r then x else r)
    have hstep : minRecBy res r (x :: xs) = minRecBy res (if res x < res r then x else r) xs := rfl
    rw [hstep]
    rcases List.mem_cons.mp h1 with h' | h'
    · rw [h']
      by_cases h : res x < res r <;> simp [h]
    · exact List.mem_cons.mpr (Or.inr (List.mem_cons.mpr (Or.inr h')))

theorem minRecBy_le {α : Type} (res : α → Nat) (r : α) (rs : List α) :
    ∀ x ∈ r :: rs, res (minRecBy res r rs) ≤ res x := by
  induction rs generalizing r with
  | nil =>
    intro x hx
    simp only [List.mem_cons, List.not_mem_nil, or_false] at hx
    subst hx
    simp [minRecBy]
  | cons y ys ih =>
    intro x hx
    have hstep : minRecBy res r (y :: ys) = minRecBy res (if res y < res r then y else r) ys := rfl
    rw [hstep]
    have hmin : res (if res y < res r then y else r) ≤ res r ∧
        res (if res y < res r then y else r) ≤ res y := by
      by_cases h : res y < res r
      · simp [h, le_of_lt h]
      · simp [h, le_of_not_lt h]
    have hhead := ih (if res y < res r then y else r) _ (List.mem_cons_self _ _)
    rcases List.mem_cons.mp hx with h1 | h1
    · subst h1
      exact le_trans hhead hmin.1
    · rcases List.mem_cons.mp h1 with h2 | h2
      · subst h2
        exact le_trans hhead hmin.2
      · exact ih _ x (List.mem_cons.mpr (Or.inr h2))

theorem find?_map_of_pred {α : Type} (f : α → α) (p : α → Bool) (l : List α)
    (h : ∀ a, p (f a) = p a) : (l.map f).find? p = (l.find? p).map f := by
  induction l with
  | nil => rfl
  | cons x xs ih =>
    by_cases hx : p x = true
    · rw [List.map_cons, List.find?_cons_of_pos _ (by rw [h x]; exact hx),
        List.find?_cons_of_pos _ hx]
      rfl
    · rw [List.map_cons, List.find?_cons_of_neg _ (by rw [h x]; simpa using hx),
        List.find?_cons_of_neg _ (by simpa using hx), ih]

theorem find?_append_some {α : Type} (p : α → Bool) (l₁ l₂ : List α) (a : α)
    (h : l₁.find? p = some a) : (l₁ ++ l₂).find? p = some a := by
  induction l₁ with
  | nil => simp [List.find?] at h
  | cons x xs ih =>
    by_cases hx : p x = true
    · rw [List.find?_cons_of_pos _ hx] at h
      rw [List.cons_append, List.find?_cons_of_pos _ hx]
      exact h
    · rw [List.find?_cons_of_neg _ (by simpa using hx)] at h
      rw [List.cons_append, List.find?_cons_of_neg _ (by simpa using hx)]
      exact ih h

theorem find?_append_none {α : Type} (p : α → Bool) (l₁ l₂ : List α)
    (h : l₁.find? p = none) : (l₁ ++ l₂).find? p = l₂.find? p := by
  induction l₁ with
  | nil => rfl
  | cons x xs ih =>
    by_cases hx : p x = true
    · rw [List.find?_cons_of_pos _ hx] at h
      exact absurd h (by simp)
    · rw [List.find?_cons_of_neg _ (by simpa using hx)] at h
      rw [List.cons_append, List.find?_cons_of_neg _ (by simpa using hx)]
      exact ih h

theorem forall₂_map_self {α : Type} (R : α → α → Prop) (f : α → α) (l : List α)
    (h : ∀ a ∈ l, R a (f a)) : List.Forall₂ R l (l.map f) := by
  induction l with
  | nil => simp
  | cons x xs ih =>
    exact List.Forall₂.cons (h x (List.mem_cons_self x xs))
      (ih fun a ha => h a (List.mem_cons.mpr (Or.inr ha)))

namespace L2A

theorem buildMask_spec {ι : Type} (arr : ι → Option ℚ) (values : List ℚ) (i : ι) :
    buildMask arr values i = values.any (fun v => decide (arr i = some v)) := by
  have gen : ∀ (vs : List ℚ) (acc : ι → Bool),
      (vs.foldl (fun m v => fun j => m j || decide (arr j = some v)) acc) i
        = (acc i || vs.any (fun v => decide (arr i = some v))) := by
    intro vs
    induction vs with
    | nil => intro acc; simp
    | cons v vs ih =>
      intro acc
      simp [List.foldl_cons, ih, Bool.or_assoc]
  simpa [buildMask] using gen values (fun _ => false)

theorem buildMask_iff {ι : Type} (arr : ι → Option ℚ) (values : List ℚ) (i : ι) :
    buildMask arr values i = true ↔ ∃ v ∈ values, arr i = some v := by
  rw [buildMask_spec]
  simp [List.any_eq_true]

theorem existsTag_of_findBand {ι : Type} (s : ProdState ι) (st : List (Band ι))
    (tag : String) (b : Band ι) (hda : s.da = some st) (hb : findBand st tag = some b) :
    existsTag s tag = true := by
  have hmem := List.mem_of_find?_eq_some hb
  have hpred := List.find?_some hb
  simp only [existsTag, hda, List.any_eq_true]
  exact ⟨b, hmem, hpred⟩

theorem readTagLoop_exists {ι : Type} (tag : String) (s : ProdState ι)
    (rs : List (Reader ι)) (hex : existsTag s tag = true) :
    readTagLoop tag s rs = (s, none) := by
  induction rs with
  | nil => rfl
  | cons r rs ih =>
    by_cases h : tag ∈ r.pats
    · simp [readTagLoop, h, hex, ih]
    · simp [readTagLoop, h, ih]

theorem readTagLoop_unclaimed {ι : Type} (tag : String) (s : ProdState ι)
    (rs : List (Reader ι)) (h : ∀ r ∈ rs, tag ∉ r.pats) :
    readTagLoop tag s rs = (s, none) := by
  induction rs with
  | nil => rfl
  | cons r rs ih =>
    have h1 := h r (List.mem_cons_self r rs)
    simp [readTagLoop, h1, ih fun r' hr => h r' (List.mem_cons.mpr (Or.inr hr))]

theorem readLoop_unclaimed {ι : Type} (readers : List (Reader ι)) (s : ProdState ι)
    (tags : List String) (h : ∀ t ∈ tags, ∀ r ∈ readers, t ∉ r.pats) :
    readLoop readers s tags = (s, none) := by
  induction tags generalizing s with
  | nil => rfl
  | cons t ts ih =>
    have h1 := readTagLoop_unclaimed t s readers (h t (List.mem_cons_self t ts))
    simp [readLoop, h1, ih s fun t' ht' => h t' (List.mem_cons.mpr (Or.inr ht'))]

theorem stackTags_update_append {ι : Type} (s : ProdState ι) (b : Band ι) (t : String)
    (ht : t ∈ stackTags s) :
    t ∈ stackTags { s with da := some (match s.da with
                                       | none => [b]
                                       | some st => st ++ [b]) } := by
  cases hda : s.da with
  | none => simp [stackTags, hda] at ht
  | some st =>
    simp only [stackTags, hda] at ht ⊢
    simp only [List.map_append]
    exact List.mem_append.mpr (Or.inl ht)

theorem readTagLoop_mono {ι : Type} (tag : String) (rs : List (Reader ι)) :
    ∀ (s : ProdState ι) (t : String), t ∈ stackTags s →
      t ∈ stackTags (readTagLoop tag s rs).1 := by
  induction rs with
  | nil => intro s t ht; exact ht
  | cons r rs ih =>
    intro s t ht
    by_cases hp : tag ∈ r.pats
    · by_cases he : existsTag s tag = true
      · simpa [readTagLoop, hp, he] using ih s t ht
      · rcases hr : r.read tag with e | d
        · simpa [readTagLoop, hp, he, hr] using ht
        · cases d with
          | da b =>
            have hupd : update s none (some b) =
                .ok { s with da := some (match s.da with
                                         | none => [b]
                                         | some st => st ++ [b]) } := rfl
            simp only [readTagLoop, hp, if_pos, he, Bool.false_eq_true, if_false, hr, hupd]
            exact ih _ t (stackTags_update_append s b t ht)
          | vec tb =>
            have hupd : update s (some tb) none =
                .ok { s with gdf := some (match s.gdf with
                                          | none => tb
                                          | some g => g ++ tb) } := rfl
            simp only [readTagLoop, hp, if_pos, he, Bool.false_eq_true, if_false, hr, hupd]
            have ht' : t ∈ stackTags { s with gdf := some (match s.gdf with
                                                           | none => tb
                                                           | some g => g ++ tb) } := by
              simpa [stackTags] using ht
            exact ih _ t ht'
          | other =>
            simpa [readTagLoop, hp, he, hr] using ht
    · simpa [readTagLoop, hp] using ih s t ht

theorem lookup_addOwner (acc : List (String × List String)) (t modName tag : String) :
    lookupOwners (addOwner acc t modName) tag =
      if t = tag then lookupOwners acc tag ++ [modName] else lookupOwners acc tag := by
  by_cases hany : acc.any (fun p => p.1 == t) = true
  · have hmap : addOwner acc t modName =
        acc.map (fun p => if p.1 == t then (p.1, p.2 ++ [modName]) else p) := by
      simp [addOwner, hany]
    rw [hmap]
    unfold lookupOwners
    rw [find?_map_of_pred _ _ _ (by
      intro a
      by_cases ha : a.1 == t <;> simp [ha])]
    rcases hfind : acc.find? (fun p => p.1 == tag) with _ | pr
    · by_cases ht : t = tag
      · subst ht
        rcases List.any_eq_true.mp hany with ⟨p, hp, hpt⟩
        have := List.find?_eq_none.mp hfind p hp
        exact absurd hpt this
      · rw [hfind]
        simp [ht]
    · have hpr : pr.1 = tag := by simpa using List.find?_some hfind
      by_cases ht : t = tag
      · subst ht
        rw [hfind]
        simp [hpr]
      · have hne : ¬ (pr.1 = t) := by
          rw [hpr]
          exact fun hc => ht hc.symm
        rw [hfind]
        simp [hne, ht]
  · have happ : addOwner acc t modName = acc ++ [(t, [modName])] := by
      simp [addOwner, hany]
    rw [happ]
    unfold lookupOwners
    rcases hfind : acc.find? (fun p => p.1 == tag) with _ | pr
    · rw [find?_append_none _ _ _ hfind, hfind]
      by_cases ht : t = tag
      · subst ht
        simp [List.find?]
      · have hb : ((t, [modName]).1 == tag) = false := by simpa using ht
        simp [List.find?, hb, ht]
    · rw [find?_append_some _ _ _ _ hfind, hfind]
      have hpr : pr.1 = tag := by simpa using List.find?_some hfind
      by_cases ht : t = tag
      · subst ht
        exact absurd
          (List.any_eq_true.mpr ⟨pr, List.mem_of_find?_eq_some hfind, by simp [hpr]⟩) hany
      · simp [ht]

theorem lookup_pats_foldl (pats : List String) (modName : String)
    (acc : List (String × List String)) (tag : String) :
    lookupOwners (pats.foldl (fun a t => addOwner a t modName) acc) tag =
      lookupOwners acc tag ++ List.replicate (pats.count tag) modName := by
  induction pats generalizing acc with
  | nil => simp
  | cons t ps ih =>
    rw [List.foldl_cons, ih, lookup_addOwner]
    by_cases ht : t = tag
    · subst ht
      rw [if_pos rfl, List.count_cons_self, List.append_assoc, List.singleton_append,
        ← List.replicate_succ]
    · rw [if_neg ht]
      have hb : (t == tag) = false := beq_eq_false_iff_ne.mpr ht
      have hc : (t :: ps).count tag = ps.count tag := by
        rw [List.count_cons, hb]
        simp
      rw [hc]

theorem lookup_readers_foldl {ι : Type} (readers : List (Reader ι))
    (acc : List (String × List String)) (tag : String) :
    lookupOwners (readers.foldl
        (fun acc r => r.pats.foldl (fun a t => addOwner a t r.modName) acc) acc) tag =
      lookupOwners acc tag ++ ownersSpec readers tag := by
  induction readers generalizing acc with
  | nil => simp [ownersSpec]
  | cons r rs ih =>
    rw [List.foldl_cons, ih, lookup_pats_foldl, ownersSpec, List.append_assoc]

theorem lookup_tagToReaders {ι : Type} (readers : List (Reader ι)) (tag : String) :
    lookupOwners (tagToReaders readers) tag = ownersSpec readers tag := by
  have h := lookup_readers_foldl readers [] tag
  have h0 : lookupOwners [] tag = [] := rfl
  rw [tagToReaders]
  rw [h, h0, List.nil_append]

theorem entry_mem_tagToReaders {ι : Type} (readers : List (Reader ι)) (tag : String)
    (h : ownersSpec readers tag ≠ []) :
    (tag, ownersSpec readers tag) ∈ tagToReaders readers := by
  rcases hfind : (tagToReaders readers).find? (fun p => p.1 == tag) with _ | pr
  · exfalso
    apply h
    have := lookup_tagToReaders readers tag
    rw [lookupOwners, hfind] at this
    exact this.symm
  · have hmem := List.mem_of_find?_eq_some hfind
    have hpr : pr.1 = tag := by simpa using List.find?_some hfind
    have hpr2 : pr.2 = ownersSpec readers tag := by
      have := lookup_tagToReaders readers tag
      rw [lookupOwners, hfind] at this
      exact this
    have : pr = (tag, ownersSpec readers tag) := by
      cases pr
      simp only at hpr hpr2
      rw [hpr, hpr2]
    rwa [← this]

theorem ownersSpec_append {ι : Type} (xs ys : List (Reader ι)) (tag : String) :
    ownersSpec (xs ++ ys) tag = ownersSpec xs tag ++ ownersSpec ys tag := by
  induction xs with
  | nil => simp [ownersSpec]
  | cons r rs ih => simp [ownersSpec, ih, List.append_assoc]

theorem count_pos_of_mem {α : Type} [BEq α] [LawfulBEq α] {a : α} {l : List α}
    (h : a ∈ l) : 0 < l.count a := by
  rcases Nat.eq_zero_or_pos (l.count a) with h0 | h0
  · exact absurd h (List.count_eq_zero.mp h0)
  · exact h0

theorem dup_entry {ι : Type} (readers : List (Reader ι)) (l1 : List (Reader ι))
    (r1 : Reader ι) (l2 : List (Reader ι)) (r2 : Reader ι) (l3 : List (Reader ι))
    (tag : String) (hsplit : readers = l1 ++ r1 :: (l2 ++ r2 :: l3))
    (h1 : tag ∈ r1.pats) (h2 : tag ∈ r2.pats) :
    (tag, ownersSpec readers tag) ∈ duplicates readers ∧
      r1.modName ∈ ownersSpec readers tag ∧ r2.modName ∈ ownersSpec readers tag := by
  have hc1 : 0 < r1.pats.count tag := count_pos_of_mem h1
  have hc2 : 0 < r2.pats.count tag := count_pos_of_mem h2
  have hshape : ownersSpec readers tag =
      ownersSpec l1 tag ++ (List.replicate (r1.pats.count tag) r1.modName ++
        (ownersSpec l2 tag ++ (List.replicate (r2.pats.count tag) r2.modName ++
          ownersSpec l3 tag))) := by
    rw [hsplit, ownersSpec_append]
    have : ownersSpec (r1 :: (l2 ++ r2 :: l3)) tag =
        List.replicate (r1.pats.count tag) r1.modName ++ ownersSpec (l2 ++ r2 :: l3) tag := rfl
    rw [this, ownersSpec_append]
    have : ownersSpec (r2 :: l3) tag =
        List.replicate (r2.pats.count tag) r2.modName ++ ownersSpec l3 tag := rfl
    rw [this]
  have hm1 : r1.modName ∈ ownersSpec readers tag := by
    rw [hshape]
    refine List.mem_append.mpr (Or.inr (List.mem_append.mpr (Or.inl ?_)))
    exact List.mem_replicate.mpr ⟨Nat.pos_iff_ne_zero.mp hc1, rfl⟩
  have hm2 : r2.modName ∈ ownersSpec readers tag := by
    rw [hshape]
    refine List.mem_append.mpr (Or.inr (List.mem_append.mpr (Or.inr
      (List.mem_append.mpr (Or.inr (List.mem_append.mpr (Or.inl ?_)))))))
    exact List.mem_replicate.mpr ⟨Nat.pos_iff_ne_zero.mp hc2, rfl⟩
  have hlen : 1 < (ownersSpec readers tag).length := by
    rw [hshape]
    simp only [List.length_append, List.length_replicate]
    omega
  have hne : ownersSpec readers tag ≠ [] := by
    intro hcon
    rw [hcon] at hlen
    simp at hlen
  refine ⟨?_, hm1, hm2⟩
  unfold duplicates
  exact List.mem_filter.mpr ⟨entry_mem_tagToReaders readers tag hne, by simpa using hlen⟩

theorem readLoop_mono {ι : Type} (readers : List (Reader ι)) (tags : List String) :
    ∀ (s : ProdState ι) (t : String), t ∈ stackTags s →
      t ∈ stackTags (readLoop readers s tags).1 := by
  induction tags with
  | nil => intro s t ht; exact ht
  | cons tg ts ih =>
    intro s t ht
    rcases h1 : readTagLoop tg s readers with ⟨s', e⟩
    have hs' : t ∈ stackTags s' := by
      have := readTagLoop_mono tg readers s t ht
      rwa [h1] at this
    cases e with
    | none => simpa [readLoop, h1] using ih s' t hs'
    | some e => simpa [readLoop, h1] using hs'

/-! Claim theorems. -/

/-- C1: the claim states that for every band tag and target resolution the
    locator selects the source file whose native resolution exactly equals
    the target when one exists.  The code does not: evaluated at the
    failing input — candidates at 20 m (`p20`) and 10 m (`p10`) with target
    resolution 20 — `IMGReader._get_img_path` returns the 10 m file, and
    `BandReader._get_best` (whose exact-match test inspects the DataFrame
    index labels 0 and 1, not the resolutions, so it cannot see the 20 m
    match) also returns the 10 m row. -/
theorem C1_locator_failing_input :
    (cFiles.any (fun r => r.res == 20) = true) ∧
    get_img_path cFiles "B02" = .ok (some "p10") ∧
    (cRows.any (fun r => r.res == 20) = true) ∧
    (cRows.all (fun r => !(r.idx == 20)) = true) ∧
    get_best 20 cRows = some ⟨1, 10, "q10"⟩ :=
  ⟨rfl, rfl, rfl, rfl, rfl⟩

/-- C2 counterexample: the claim states that a tag claimed by no reader
    category makes `read` fail with an `Unrecognized` error.  At the
    concrete input `read("XYZ")` on a freshly constructed product, no
    pattern list contains the tag, yet `read` returns without any error and
    without touching the state. -/
theorem C2_counterexample :
    ((L2A_READERS env0).all (fun r => !decide ("XYZ" ∈ r.pats)) = true) ∧
    read (L2A_READERS env0) (initialState Unit) ["XYZ"] = (initialState Unit, none) :=
  ⟨rfl, rfl⟩

/-- C2 amended: a batch whose tags are claimed by no reader is silently
    skipped — the dispatch loop leaves the state untouched and raises
    nothing, after which `read` still performs the final mask
    re-application step on the unchanged state. -/
theorem C2_unrecognized_tags_ignored {ι : Type} (readers : List (Reader ι))
    (s : ProdState ι) (tags : List String)
    (h : ∀ t ∈ tags, ∀ r ∈ readers, t ∉ r.pats) :
    readLoop readers s tags = (s, none) ∧
    read readers s tags = (match apply_mask s with
                           | .ok s' => (s', none)
                           | .error e => (s, some e)) := by
  have h1 := readLoop_unclaimed readers s tags h
  refine ⟨h1, ?_⟩
  unfold read
  rw [h1]

/-- C2 witness: the amended behaviour at the concrete unrecognized tag. -/
theorem C2_witness :
    readLoop (L2A_READERS env0) (initialState Unit) ["XYZ"] = (initialState Unit, none) ∧
    read (L2A_READERS env0) (initialState Unit) ["XYZ"] = (initialState Unit, none) :=
  C2_unrecognized_tags_ignored (L2A_READERS env0) (initialState Unit) ["XYZ"] (by decide)

/-- C3 counterexample: the claim states that a failing batch leaves the
    stack exactly as before the `read` call.  At the concrete input, the
    batch `[B02, B03]` fails on `B03` (missing file) after `B02` has been
    fetched, and the `B02` plane is still in the stack when the error
    propagates. -/
theorem C3_counterexample :
    (read [rW] (initialState Unit) ["B02", "B03"]).2 = some .fileNotFound ∧
    existsTag (initialState Unit) "B02" = false ∧
    existsTag (read [rW] (initialState Unit) ["B02", "B03"]).1 "B02" = true :=
  ⟨rfl, rfl, rfl⟩

/-- C3 amended: `read` is not transactional.  When the per-tag loop fails,
    the error propagates with the state exactly as accumulated at the
    failure point: every plane merged for an earlier tag of the same batch
    (and every previously present band) is still in the stack, and the
    final mask re-application step is skipped. -/
theorem C3_read_failure_keeps_partial_state {ι : Type} (readers : List (Reader ι))
    (s : ProdState ι) (tags : List String) (s' : ProdState ι) (e : Err)
    (h : readLoop readers s tags = (s', some e)) :
    read readers s tags = (s', some e) ∧ ∀ t ∈ stackTags s, t ∈ stackTags s' := by
  constructor
  · unfold read
    rw [h]
  · intro t ht
    have hmono := readLoop_mono readers tags s t ht
    rwa [h] at hmono

/-- C3 witness: the amended behaviour at the concrete failing batch. -/
theorem C3_witness :
    read [rW] (initialState Unit) ["B02", "B03"] = (sW1, some .fileNotFound) :=
  (C3_read_failure_keeps_partial_state [rW] (initialState Unit) ["B02", "B03"]
    sW1 .fileNotFound rfl).1

/-- C4 counterexample: the claim states that a band fetched only for
    masking is removed from the stack again before `addMask` returns.  At
    the concrete input — a mask request on `SCL`, never requested by the
    caller, stack initially empty — the band is still in the stack after
    `_add_mask` succeeds. -/
theorem C4_counterexample :
    existsTag (initialState Unit) "SCL" = false ∧
    (add_mask [uSCLReader] (initialState Unit) "SCL" [0]).2 = none ∧
    existsTag (add_mask [uSCLReader] (initialState Unit) "SCL" [0]).1 "SCL" = true :=
  ⟨rfl, rfl, rfl⟩

/-- C4 amended: `_add_mask` never evicts the band it read transparently:
    after any successful `_add_mask` call the masking source band is
    present in the stack, whether or not the caller ever requested it. -/
theorem C4_add_mask_keeps_band {ι : Type} (readers : List (Reader ι)) (s : ProdState ι)
    (tag : String) (values : List ℚ) (s₁ : ProdState ι)
    (h : add_mask readers s tag values = (s₁, none)) :
    existsTag s₁ tag = true := by
  unfold add_mask at h
  rcases hr : read readers s [tag] with ⟨s', e⟩
  rw [hr] at h
  cases e with
  | some e' => simp at h
  | none =>
    dsimp only at h
    rcases hda : s'.da with _ | st
    · rw [hda] at h
      simp at h
    · rw [hda] at h
      dsimp only at h
      rcases hfb : findBand st tag with _ | b
      · rw [hfb] at h
        simp at h
      · rw [hfb] at h
        dsimp only at h
        rw [Prod.mk.injEq] at h
        obtain ⟨h1, -⟩ := h
        subst h1
        exact existsTag_of_findBand _ st tag b rfl hfb

/-- C4 witness: the amended behaviour at a concrete mask request. -/
theorem C4_witness :
    existsTag (add_mask [uSCLReader] (initialState Unit) "SCL" [7]).1 "SCL" = true :=
  C4_add_mask_keeps_band [uSCLReader] (initialState Unit) "SCL" [7] _ rfl

/-- C5: for a mask built from source band `b` and a value set on a
    previously maskless state, `_add_mask` records exactly the per-value
    equality union as the mask (a cell is flagged iff the source band's
    value there is in the set), and `_apply_mask` then turns exactly the
    flagged cells of *every* band of the stack into no-data while every
    other cell keeps its previous value (the stated "no-data exactly when"
    equivalence holds at every cell that held data).  Moreover a further
    mask request on a state that already has a mask OR-accumulates: the
    resulting mask is the pointwise disjunction of the old mask with the
    new band/value-set mask. -/
theorem C5_mask_semantics {ι : Type} (readers : List (Reader ι)) (s : ProdState ι)
    (tag : String) (values : List ℚ) (st : List (Band ι)) (b : Band ι)
    (hm : s.mask = none) (hda : s.da = some st) (hb : findBand st tag = some b) :
    (add_mask readers s tag values =
        ({ s with mask := some (buildMask b.cells values) }, none) ∧
      apply_mask { s with mask := some (buildMask b.cells values) } =
        .ok { s with da := some (maskWhere (buildMask b.cells values) st),
                     mask := some (buildMask b.cells values) } ∧
      (∀ i, buildMask b.cells values i = true ↔ ∃ v ∈ values, b.cells i = some v) ∧
      List.Forall₂ (fun bb bb' : Band ι =>
          bb'.tag = bb.tag ∧ ∀ i,
            ((∃ v ∈ values, b.cells i = some v) → bb'.cells i = none) ∧
            (¬ (∃ v ∈ values, b.cells i = some v) → bb'.cells i = bb.cells i) ∧
            (bb.cells i ≠ none →
              (bb'.cells i = none ↔ ∃ v ∈ values, b.cells i = some v)))
        st (maskWhere (buildMask b.cells values) st)) ∧
    (∀ (t : ProdState ι) (mt : ι → Bool) (tag₂ : String) (vals₂ : List ℚ)
        (st₂ : List (Band ι)) (b₂ : Band ι),
      t.mask = some mt → t.da = some st₂ → findBand st₂ tag₂ = some b₂ →
      (add_mask readers t tag₂ vals₂).2 = none ∧
      ∃ m', (add_mask readers t tag₂ vals₂).1.mask = some m' ∧
        ∀ i, m' i = (mt i || buildMask b₂.cells vals₂ i)) := by
  constructor
  · have hex : existsTag s tag = true := existsTag_of_findBand s st tag b hda hb
    have hskip := readTagLoop_exists tag s readers hex
    have hread : read readers s [tag] = (s, none) := by
      unfold read
      have hloop : readLoop readers s [tag] = (s, none) := by
        simp [readLoop, hskip]
      rw [hloop]
      simp [apply_mask, hm]
    have hadd : add_mask readers s tag values =
        ({ s with mask := some (buildMask b.cells values) }, none) := by
      unfold add_mask
      rw [hread]
      dsimp only
      rw [hda]
      dsimp only
      rw [hb]
      dsimp only
      rw [hm]
      dsimp only
      rw [← hda]
      exact congrArg (fun M : ι → Bool =>
        (({ da := s.da, mask := some M, gdf := s.gdf } : ProdState ι), (none : Option Err)))
        (funext fun i => Bool.false_or _)
    refine ⟨hadd, ?_, fun i => buildMask_iff b.cells values i, ?_⟩
    · unfold apply_mask
      dsimp only
      rw [hda]
    · unfold maskWhere
      apply forall₂_map_self
      intro bb hbb
      refine ⟨rfl, fun i => ⟨?_, ?_, ?_⟩⟩
      · intro hex2
        have hM : buildMask b.cells values i = true := (buildMask_iff b.cells values i).mpr hex2
        simp [maskBand, hM]
      · intro hne
        have hM : buildMask b.cells values i = false := by
          cases hbool : buildMask b.cells values i with
          | false => rfl
          | true => exact absurd ((buildMask_iff b.cells values i).mp hbool) hne
        simp [maskBand, hM]
      · intro hcell
        cases hbool : buildMask b.cells values i with
        | false =>
          constructor
          · intro h0
            exfalso
            apply hcell
            simpa [maskBand, hbool] using h0
          · intro hex2
            exact absurd ((buildMask_iff b.cells values i).mpr hex2) (by simp [hbool])
        | true =>
          constructor
          · intro _
            exact (buildMask_iff b.cells values i).mp hbool
          · intro _
            simp [maskBand, hbool]
  · intro t mt tag₂ vals₂ st₂ b₂ hmt hdat hbt
    have hex₂ : existsTag t tag₂ = true := existsTag_of_findBand t st₂ tag₂ b₂ hdat hbt
    have hskip₂ := readTagLoop_exists tag₂ t readers hex₂
    have happly : apply_mask t = .ok { t with da := some (maskWhere mt st₂) } := by
      unfold apply_mask
      rw [hmt]
      dsimp only
      rw [hdat]
    have hread₂ : read readers t [tag₂] = ({ t with da := some (maskWhere mt st₂) }, none) := by
      unfold read
      have hloop : readLoop readers t [tag₂] = (t, none) := by
        simp [readLoop, hskip₂]
      rw [hloop]
      dsimp only
      rw [happly]
    have hfb₂ : findBand (maskWhere mt st₂) tag₂ = some (maskBand mt b₂) := by
      unfold findBand maskWhere
      rw [find?_map_of_pred (maskBand mt) (fun b => b.tag == tag₂) st₂ (fun a => rfl)]
      unfold findBand at hbt
      rw [hbt]
      rfl
    have hadd₂ : add_mask readers t tag₂ vals₂ =
        ({ t with da := some (maskWhere mt st₂),
                  mask := some (fun i =>
                    mt i || buildMask (maskBand mt b₂).cells vals₂ i) }, none) := by
      unfold add_mask
      rw [hread₂]
      dsimp only
      rw [hfb₂]
      dsimp only
      rw [hmt]
    rw [hadd₂]
    refine ⟨rfl, _, rfl, ?_⟩
    intro i
    cases hmi : mt i with
    | true => simp [hmi]
    | false =>
      have hc : (maskBand mt b₂).cells i = b₂.cells i := by simp [maskBand, hmi]
      simp [buildMask_spec, hc, hmi]

/-- C5 witness: the mask semantics at the concrete two-cell, two-band
    stack `st5` with the SCL masking example's value set. -/
theorem C5_witness :
    (add_mask ([] : List (Reader Bool)) s5 "SCL" V5).2 = none ∧
    (apply_mask (add_mask ([] : List (Reader Bool)) s5 "SCL" V5).1).map ProdState.da
      = .ok (some (maskWhere (buildMask b5.cells V5) st5)) := by
  obtain ⟨⟨h1, h2, h3, h4⟩, hacc⟩ :=
    C5_mask_semantics ([] : List (Reader Bool)) s5 "SCL" V5 st5 b5 rfl rfl rfl
  constructor
  · rw [h1]
  · rw [h1]
    dsimp only
    rw [h2]
    rfl

/-- C6: the three calibration branches reproduce the claimed formulas:
    a reflectance plane is `(raw + offset) / boaQuantification` pointwise,
    an atmospheric plane is `raw / quantification(tag)` with no offset (the
    lookup key is the band's own tag, `WVP` or `AOT`), and the
    classification plane is the raw plane unchanged. -/
theorem C6_calibration {ι : Type} (env : JP2Env ι) :
    (∀ (tag p : String) (raw : ι → ℚ) (o q : ℚ),
      get_img_path env.files tag = .ok (some p) →
      env.fetch p = .ok raw → get_band_offset env.meta tag = .ok o →
      get_band_quantification env.meta "BOA" = .ok q →
      reflectanceRead env tag = .ok ⟨tag, fun i => some ((raw i + o) / q)⟩) ∧
    (∀ (tag p : String) (raw : ι → ℚ) (q : ℚ),
      get_img_path env.files tag = .ok (some p) →
      env.fetch p = .ok raw → get_band_quantification env.meta tag = .ok q →
      atmosphericRead env tag = .ok ⟨tag, fun i => some (raw i / q)⟩) ∧
    (∀ (tag p : String) (raw : ι → ℚ),
      get_img_path env.files tag = .ok (some p) → env.fetch p = .ok raw →
      classificationRead env tag = .ok ⟨tag, fun i => some (raw i)⟩) := by
  refine ⟨?_, ?_, ?_⟩
  · intro tag p raw o q h1 h2 h3 h4
    unfold reflectanceRead
    rw [h1]
    dsimp only
    rw [h2]
    dsimp only
    rw [h3]
    dsimp only
    rw [h4]
  · intro tag p raw q h1 h2 h3
    unfold atmosphericRead
    rw [h1]
    dsimp only
    rw [h2]
    dsimp only
    rw [h3]
  · intro tag p raw h1 h2
    unfold classificationRead
    rw [h1]
    dsimp only
    rw [h2]

/-- C6 witness: the three formulas on the concrete environment `env6`
    (constant raw plane 5, offset -1000, BOA quantification 10000, WVP
    quantification 1000). -/
theorem C6_witness :
    reflectanceRead env6 "B02" = .ok ⟨"B02", fun _ => some (((5 : ℚ) + -1000) / 10000)⟩ ∧
    atmosphericRead env6 "WVP" = .ok ⟨"WVP", fun _ => some ((5 : ℚ) / 1000)⟩ ∧
    classificationRead env6 "SCL" = .ok ⟨"SCL", fun _ => some (5 : ℚ)⟩ := by
  obtain ⟨hr, ha, hc⟩ := C6_calibration env6
  exact ⟨hr "B02" "pB02" (fun _ => 5) (-1000) 10000 rfl rfl rfl rfl,
         ha "WVP" "pWVP" (fun _ => 5) 1000 rfl rfl rfl,
         hc "SCL" "pSCL" (fun _ => 5) rfl rfl⟩

/-- C7: when one tag appears in the pattern lists of two distinct readers
    of the registry, `_unique_tags` raises the duplicate-tag error whose
    payload lists that tag together with both owning readers' module names,
    and construction returns that error on the still-empty state before any
    read is attempted, whatever the mask specification; conversely a
    construction that does not fail admits no tag claimed by two distinct
    readers.  ("Satisfy" is the plain list membership that
    `L2AProduct.read` itself uses for dispatch.) -/
theorem C7_duplicate_patterns (ι : Type) :
    (∀ (readers : List (Reader ι)) (l1 : List (Reader ι)) (r1 : Reader ι)
        (l2 : List (Reader ι)) (r2 : Reader ι) (l3 : List (Reader ι)) (tag : String),
      readers = l1 ++ r1 :: (l2 ++ r2 :: l3) → tag ∈ r1.pats → tag ∈ r2.pats →
      unique_tags readers = .error (.duplicateTags (duplicates readers)) ∧
      ((tag, ownersSpec readers tag) ∈ duplicates readers ∧
        r1.modName ∈ ownersSpec readers tag ∧ r2.modName ∈ ownersSpec readers tag) ∧
      (∀ maskSpec, init readers maskSpec =
        (initialState ι, some (.duplicateTags (duplicates readers))))) ∧
    (∀ (readers : List (Reader ι)) (maskSpec : List (String × List ℚ)),
      (init readers maskSpec).2 = none →
      ∀ (l1 : List (Reader ι)) (r1 : Reader ι) (l2 : List (Reader ι)) (r2 : Reader ι)
        (l3 : List (Reader ι)) (tag : String),
        readers = l1 ++ r1 :: (l2 ++ r2 :: l3) →
        ¬ (tag ∈ r1.pats ∧ tag ∈ r2.pats)) := by
  constructor
  · intro readers l1 r1 l2 r2 l3 tag hsplit h1 h2
    obtain ⟨hmemdup, hm1, hm2⟩ := dup_entry readers l1 r1 l2 r2 l3 tag hsplit h1 h2
    have hne : duplicates readers ≠ [] := List.ne_nil_of_mem hmemdup
    have huniq : unique_tags readers = .error (.duplicateTags (duplicates readers)) := by
      unfold unique_tags
      rw [if_neg hne]
    refine ⟨huniq, ⟨hmemdup, hm1, hm2⟩, ?_⟩
    intro maskSpec
    unfold init
    rw [huniq]
  · intro readers maskSpec hok l1 r1 l2 r2 l3 tag hsplit hc
    obtain ⟨h1, h2⟩ := hc
    obtain ⟨hmemdup, -, -⟩ := dup_entry readers l1 r1 l2 r2 l3 tag hsplit h1 h2
    have hne : duplicates readers ≠ [] := List.ne_nil_of_mem hmemdup
    have huniq : unique_tags readers = .error (.duplicateTags (duplicates readers)) := by
      unfold unique_tags
      rw [if_neg hne]
    unfold init at hok
    rw [huniq] at hok
    simp at hok

/-- C7 witness: two readers both claiming `B08` make construction fail with
    the duplicate enumeration, before any read. -/
theorem C7_witness :
    unique_tags [rA, rB] = .error (.duplicateTags [("B08", ["modA", "modB"])]) ∧
    init [rA, rB] [] = (initialState Unit, some (.duplicateTags [("B08", ["modA", "modB"])])) := by
  obtain ⟨h1, h2, h3⟩ :=
    (C7_duplicate_patterns Unit).1 [rA, rB] [] rA [] rB [] "B08" rfl (by decide) (by decide)
  exact ⟨h1, h3 []⟩

/-- C8 counterexample: the claim states that re-issuing `read(tag)` for a
    band already in the stack changes no cell.  At the concrete input — the
    state straight after construction with the mask specification
    `{SCL: [0]}`, whose mask is pending — re-reading the already present
    `SCL` band fetches nothing but applies the pending mask, changing the
    masked cell from 0 to no-data. -/
theorem C8_counterexample :
    existsTag s8 "SCL" = true ∧
    (read [uSCLReader] s8 ["SCL"]).2 = none ∧
    bandCell s8 "SCL" () = some (some 0) ∧
    bandCell (read [uSCLReader] s8 ["SCL"]).1 "SCL" () = some none :=
  ⟨rfl, rfl, rfl, rfl⟩

/-- C8 amended: re-issuing `read(tag)` for a present band never re-fetches
    or re-merges it (the dispatch loop is a strict no-op on the state), and
    the whole state is unchanged provided the trailing mask re-application
    is a no-op on the current state — which holds whenever no mask exists
    or the accumulated mask has already been applied; straight after
    construction with a mask specification the mask is still pending and
    the re-issued read applies it. -/
theorem C8_read_idempotent_when_mask_settled {ι : Type} (readers : List (Reader ι))
    (s : ProdState ι) (tag : String) (hex : existsTag s tag = true)
    (hfix : apply_mask s = .ok s) :
    readTagLoop tag s readers = (s, none) ∧ read readers s [tag] = (s, none) := by
  have h1 := readTagLoop_exists tag s readers hex
  refine ⟨h1, ?_⟩
  unfold read
  have hloop : readLoop readers s [tag] = (s, none) := by
    simp [readLoop, h1]
  rw [hloop]
  dsimp only
  rw [hfix]

/-- C8 witness: the amended idempotence on a maskless state holding
    `B07`. -/
theorem C8_witness :
    readTagLoop "B07" sFix (L2A_READERS env0) = (sFix, none) ∧
    read (L2A_READERS env0) sFix ["B07"] = (sFix, none) :=
  C8_read_idempotent_when_mask_settled (L2A_READERS env0) sFix "B07" rfl rfl

/-- C9: `remove` on a `None` stack raises, naming every present band
    empties the stack without error, and naming a strict subset keeps
    exactly the bands whose tag was not named (the resulting band axis is
    the complement). -/
theorem C9_remove_semantics {ι : Type} (s : ProdState ι) (tags : List String) :
    (s.da = none → removeTags s tags = .error .invalidState) ∧
    (∀ st : List (Band ι), s.da = some st → (∀ b ∈ st, b.tag ∈ tags) →
      removeTags s tags = .ok { s with da := none }) ∧
    (∀ st : List (Band ι), s.da = some st → (∃ b ∈ st, b.tag ∉ tags) →
      removeTags s tags =
        .ok { s with da := some (st.filter (fun b => !decide (b.tag ∈ tags))) } ∧
      ∀ t, (t ∈ stackTags { s with da := some (st.filter (fun b => !decide (b.tag ∈ tags))) } ↔
        (t ∈ stackTags s ∧ t ∉ tags))) := by
  refine ⟨?_, ?_, ?_⟩
  · intro h
    unfold removeTags
    rw [h]
  · intro st hst hall
    unfold removeTags
    rw [hst]
    dsimp only
    have hcnt : st.countP (fun b => decide (b.tag ∈ tags)) = st.length :=
      List.countP_eq_length.mpr fun b hb => by simpa using hall b hb
    rw [if_pos hcnt]
  · intro st hst hex
    unfold removeTags
    rw [hst]
    dsimp only
    obtain ⟨b0, hb0, hnb0⟩ := hex
    have hcnt : st.countP (fun b => decide (b.tag ∈ tags)) ≠ st.length := by
      intro hc
      have := List.countP_eq_length.mp hc b0 hb0
      simp at this
      exact hnb0 this
    rw [if_neg hcnt]
    refine ⟨rfl, ?_⟩
    intro t
    simp only [stackTags, hst, List.mem_map, List.mem_filter]
    constructor
    · rintro ⟨bb, ⟨hmem, hp⟩, htag⟩
      refine ⟨⟨bb, hmem, htag⟩, ?_⟩
      subst htag
      simpa using hp
    · rintro ⟨⟨bb, hmem, htag⟩, hnt⟩
      refine ⟨bb, ⟨hmem, ?_⟩, htag⟩
      subst htag
      simpa using hnt

/-- C9 witness: the three removal behaviours at concrete stacks. -/
theorem C9_witness :
    removeTags (initialState Unit) ["B02"] = .error .invalidState ∧
    removeTags sC9 ["B02", "B03"] = .ok { sC9 with da := none } ∧
    removeTags sC9 ["B02"] =
      .ok { sC9 with da := some (stC9.filter (fun b => !decide (b.tag ∈ ["B02"]))) } ∧
    ("B03" ∈ stackTags { sC9 with da := some (stC9.filter (fun b => !decide (b.tag ∈ ["B02"]))) } ↔
      ("B03" ∈ stackTags sC9 ∧ "B03" ∉ ["B02"])) := by
  have hexsub : ∃ b ∈ stC9, b.tag ∉ ["B02"] :=
    ⟨bC93, List.mem_cons.mpr (Or.inr (List.mem_cons_self bC93 [])), by decide⟩
  refine ⟨(C9_remove_semantics (initialState Unit) ["B02"]).1 rfl,
          (C9_remove_semantics sC9 ["B02", "B03"]).2.1 stC9 rfl (by decide),
          ((C9_remove_semantics sC9 ["B02"]).2.2 stC9 rfl hexsub).1,
          ((C9_remove_semantics sC9 ["B02"]).2.2 stC9 rfl hexsub).2 "B03"⟩

/-- C10: on a product whose mask is set but whose stack is `None` (for
    instance after every band was removed), a `read` whose tags are all
    unclaimed — in particular an empty batch — reaches the mask
    re-application step with `self.da is None` and raises (the
    `AttributeError` of `None.where`), rather than returning as a no-op;
    the state itself is left as it was. -/
theorem C10_empty_read_mask_error {ι : Type} (readers : List (Reader ι)) (s : ProdState ι)
    (tags : List String) {m : ι → Bool} (hm : s.mask = some m) (hda : s.da = none)
    (h : ∀ t ∈ tags, ∀ r ∈ readers, t ∉ r.pats) :
    read readers s tags = (s, some .attributeNone) := by
  have h1 := readLoop_unclaimed readers s tags h
  unfold read
  rw [h1]
  dsimp only
  have happ : apply_mask s = .error .attributeNone := by
    unfold apply_mask
    rw [hm]
    dsimp only
    rw [hda]
  rw [happ]

/-- C10 witness: after construction with a mask specification and removal
    of every band, both the empty batch and an unrecognized batch fail in
    the mask re-application step. -/
theorem C10_witness :
    removeTags s8 ["SCL"] = .ok s10 ∧
    read [uSCLReader] s10 [] = (s10, some .attributeNone) ∧
    read (L2A_READERS env0) s10 ["XYZ"] = (s10, some .attributeNone) := by
  refine ⟨rfl, ?_, ?_⟩
  · exact C10_empty_read_mask_error [uSCLReader] s10 [] rfl rfl (by decide)
  · exact C10_empty_read_mask_error (L2A_READERS env0) s10 ["XYZ"] rfl rfl (by decide)

end L2A

end S2
